import Mathlib

/-!
Shallow embedding of the task-tracking backend in `src/backend/app.py` (Flask +
SQLite + PyJWT), together with theorems settling the frozen claims about it.

Modelling conventions:
* The SQLite database is modelled as explicit state: a list of user rows and a
  list of task rows plus the AUTOINCREMENT counters.  SQL `SELECT ... WHERE`
  with `fetchone` becomes `List.find?` (first row in rowid order), `DELETE`
  becomes `List.filter`, `UPDATE` becomes `List.map`.
* JSON response bodies built by `jsonify` are modelled by an explicit `Json`
  value; an HTTP response is a status code paired with a body.
* Python string primitives used by the app (`str.split(' ')`, `str.strip()`,
  `str.lower()`) are modelled by executable functions over `List Char`
  (`pySplit`, `pyStrip`, `pyLower`), matching Python's behaviour on the ASCII
  strings the app manipulates.
* `werkzeug.generate_password_hash` / `check_password_hash` and the PyJWT
  HS256 encode/decode are third-party primitives, not code of this repository;
  they are modelled as an idealised salted hash and an idealised symmetric MAC
  over an explicit wire format, keeping the control flow of `app.py` exact.
-/

namespace TodoApp

/-- Whitespace characters stripped by Python `str.strip()`. -/
def isPySpace (c : Char) : Bool :=
  c = ' ' || c = '\t' || c = '\n' || c = '\r' || c = '\x0b' || c = '\x0c'

/-- Model of Python `str.strip()`: drop leading and trailing whitespace. -/
def pyStrip (s : String) : String :=
  String.mk (((s.data.dropWhile isPySpace).reverse.dropWhile isPySpace).reverse)

/-- Model of Python `str.lower()` on one character (ASCII range, which is all
the app's validated inputs use). -/
def lowerChar (c : Char) : Char :=
  if 65 ≤ c.toNat ∧ c.toNat ≤ 90 then Char.ofNat (c.toNat + 32) else c

/-- Model of Python `str.lower()`. -/
def pyLower (s : String) : String :=
  String.mk (s.data.map lowerChar)

/-- Splitting a character list at every occurrence of `sep`, keeping empty
chunks, exactly like Python `str.split(sep)` with a one-character separator. -/
def splitChar (sep : Char) : List Char → List (List Char)
  | [] => [[]]
  | c :: cs =>
    let rest := splitChar sep cs
    if c = sep then
      [] :: rest
    else
      match rest with
      | [] => [[c]]
      | g :: gs => (c :: g) :: gs

/-- Model of Python `str.split(sep)` for a one-character separator. -/
def pySplit (sep : Char) (s : String) : List String :=
  (splitChar sep s.data).map String.mk

/-- Decimal digits of `n`, least significant first; `fuel` bounds the
recursion depth and any `fuel ≥ n` is enough. -/
def toDigitsRev : Nat → Nat → List Nat
  | 0, _ => []
  | fuel + 1, n => if n = 0 then [] else n % 10 :: toDigitsRev fuel (n / 10)

/-- Value of a little-endian digit list. -/
def digitsVal : List Nat → Nat
  | [] => 0
  | d :: ds => d + 10 * digitsVal ds

/-- Decimal rendering of a natural number, as Python `str(n)` produces. -/
def natStr (n : Nat) : String :=
  if n = 0 then "0" else String.mk ((toDigitsRev n n).reverse.map (fun d => Char.ofNat (48 + d)))

/-- Parse a character list as a decimal natural number, rejecting empty input
and non-digit characters. -/
def charsToNat? (cs : List Char) : Option Nat :=
  if cs ≠ [] ∧ cs.all (fun c => 48 ≤ c.toNat ∧ c.toNat ≤ 57) then
    some (digitsVal ((cs.map (fun c => c.toNat - 48)).reverse))
  else
    none

section BasicLemmas

theorem toNat_ofNat_of_lt {n : Nat} (h : n < 55296) : (Char.ofNat n).toNat = n := by
  have hv : n.isValidChar := Or.inl h
  simp only [Char.ofNat, hv, dif_pos]
  simp [Char.ofNatAux, Char.toNat, UInt32.toNat]

theorem strData_append (a b : String) : (a ++ b).data = a.data ++ b.data := by
  cases a; cases b; rfl

theorem splitChar_of_not_mem {sep : Char} {xs : List Char} (h : sep ∉ xs) :
    splitChar sep xs = [xs] := by
  induction xs with
  | nil => rfl
  | cons c cs ih =>
    have hc : c ≠ sep := fun hceq => h (hceq ▸ List.mem_cons_self c cs)
    have hcs : sep ∉ cs := fun hm => h (List.mem_cons_of_mem c hm)
    simp [splitChar, hc, ih hcs]

theorem splitChar_append {sep : Char} {xs : List Char} (ys : List Char) (h : sep ∉ xs) :
    splitChar sep (xs ++ sep :: ys) = xs :: splitChar sep ys := by
  induction xs with
  | nil => simp [splitChar]
  | cons c cs ih =>
    have hc : c ≠ sep := fun hceq => h (hceq ▸ List.mem_cons_self c cs)
    have hcs : sep ∉ cs := fun hm => h (List.mem_cons_of_mem c hm)
    simp only [List.cons_append, splitChar, if_neg hc]
    rw [show cs.append (sep :: ys) = cs ++ sep :: ys from rfl, ih hcs]

theorem digitsVal_toDigitsRev {fuel n : Nat} (h : n ≤ fuel) :
    digitsVal (toDigitsRev fuel n) = n := by
  induction fuel generalizing n with
  | zero => interval_cases n; rfl
  | succ fuel ih =>
    by_cases hn : n = 0
    · simp [toDigitsRev, hn, digitsVal]
    · have hlt : n / 10 < n := Nat.div_lt_self (Nat.pos_of_ne_zero hn) (by omega)
      have hle : n / 10 ≤ fuel := by omega
      simp only [toDigitsRev, if_neg hn, digitsVal, ih hle]
      omega

theorem toDigitsRev_digits_lt {fuel n : Nat} :
    ∀ d ∈ toDigitsRev fuel n, d < 10 := by
  induction fuel generalizing n with
  | zero => intro d hd; simp [toDigitsRev] at hd
  | succ fuel ih =>
    intro d hd
    by_cases hn : n = 0
    · simp [toDigitsRev, hn] at hd
    · simp only [toDigitsRev, if_neg hn, List.mem_cons] at hd
      rcases hd with h1 | h2
      · subst h1; exact Nat.mod_lt _ (by omega)
      · exact ih d h2

theorem toDigitsRev_ne_nil {fuel n : Nat} (hn : n ≠ 0) (h : n ≤ fuel) :
    toDigitsRev fuel n ≠ [] := by
  cases fuel with
  | zero => omega
  | succ fuel => simp [toDigitsRev, hn]

end BasicLemmas

/-- JSON values as produced by `jsonify` in `app.py`. -/
inductive Json where
  | str : String → Json
  | num : Nat → Json
  | obj : List (String × Json) → Json
  | arr : List Json → Json

/-- An HTTP response: status code and JSON body, as returned by every handler
via `jsonify(...), code`. -/
abbrev Response := Nat × Json

/-- Body `{"error": msg}`, the shape of every error response in `app.py`. -/
def errBody (msg : String) : Json :=
  Json.obj [("error", Json.str msg)]

mutual

/-- All string values occurring in a JSON body (the data a response leaks). -/
def Json.strings : Json → List String
  | .str s => [s]
  | .num _ => []
  | .obj fs => Json.stringsFields fs
  | .arr xs => Json.stringsArr xs

/-- String values in a JSON object field list. -/
def Json.stringsFields : List (String × Json) → List String
  | [] => []
  | (_, v) :: rest => v.strings ++ Json.stringsFields rest

/-- String values in a JSON array. -/
def Json.stringsArr : List Json → List String
  | [] => []
  | v :: rest => v.strings ++ Json.stringsArr rest

end

/-- Row of the `users` table (`id`, `username`, `email`, `password_hash`;
`created_at` is never read by any handler and is omitted). -/
structure User where
  id : Nat
  username : String
  email : String
  password_hash : String
  deriving DecidableEq

/-- Row of the `tasks` table.  `completed` is an SQLite `INTEGER` (0 = false),
as in the schema `completed INTEGER DEFAULT 0`. -/
structure Task where
  id : Nat
  user_id : Nat
  text : String
  completed : Nat
  pomodoroCount : Nat
  deriving DecidableEq

/-- The SQLite database `tasks.db`: both tables plus the AUTOINCREMENT
counters (`lastrowid` source) for each table. -/
structure DB where
  users : List User
  tasks : List Task
  nextUserId : Nat
  nextTaskId : Nat
  deriving DecidableEq

/-- Modelled third-party primitive: `werkzeug.generate_password_hash`.  The
fresh random salt is an explicit argument; the output encodes salt and digest
so that verification is self-contained. -/
def generate_password_hash (salt password : String) : String :=
  salt ++ "$" ++ password

/-- Modelled third-party primitive: `werkzeug.check_password_hash`. -/
def check_password_hash (hash password : String) : Bool :=
  match pySplit '$' hash with
  | [_, p] => p = password
  | _ => false

/-- Modelled third-party primitive: the HS256 MAC computed by PyJWT over the
payload with the server secret.  It is an executable deterministic function of
(secret, payload); the output never contains the `'|'` separator of the wire
format below. -/
def hs256Sig (secret payload : String) : String :=
  String.mk (("MAC/" ++ secret ++ "/" ++ payload).data.map (fun c => if c = '|' then '/' else c))

/-- Wire format of the JWT payload `{user_id, username, exp}`. -/
def jwtPayloadStr (user_id : Nat) (username : String) (exp : Nat) : String :=
  natStr user_id ++ "|" ++ username ++ "|" ++ natStr exp

/-- Modelled third-party primitive: `jwt.encode({user_id, username, exp},
SECRET_KEY, algorithm='HS256')` — the claims followed by the MAC of the claims
under the server secret. -/
def jwt_encode (secret : String) (user_id : Nat) (username : String) (exp : Nat) : String :=
  jwtPayloadStr user_id username exp ++ "|" ++ hs256Sig secret (jwtPayloadStr user_id username exp)

/-- Failure kinds of `jwt.decode`: `jwt.ExpiredSignatureError` and
`jwt.InvalidTokenError` (the two exceptions `verify_token` catches). -/
inductive JwtError where
  | expired
  | invalid
  deriving DecidableEq

/-- Decoded JWT claims. -/
structure JwtClaims where
  user_id : Nat
  username : String
  exp : Nat
  deriving DecidableEq

/-- Modelled third-party primitive: `jwt.decode(token, SECRET_KEY,
algorithms=['HS256'])` at current time `now`: parse the wire format, check the
MAC, then check expiry (valid strictly before `exp`). -/
def jwt_decode (secret : String) (now : Nat) (token : String) : Except JwtError JwtClaims :=
  match pySplit '|' token with
  | [uidS, uname, expS, sigS] =>
    match charsToNat? uidS.data, charsToNat? expS.data with
    | some uid, some exp =>
      if sigS ≠ hs256Sig secret (uidS ++ "|" ++ uname ++ "|" ++ expS) then
        .error .invalid
      else if exp ≤ now then
        .error .expired
      else
        .ok ⟨uid, uname, exp⟩
    | _, _ => .error .invalid
  | _ => .error .invalid

/-- Outcome of the `verify_token` middleware: either an early error response,
or the identity `(request.current_user_id, request.current_username)` attached
to the request before the wrapped handler runs. -/
abbrev AuthOutcome := Except (Nat × String) (Nat × String)

/-- The `verify_token` decorator of `app.py` (lines 91–129): extract the token
as `auth_header.split(' ')[1]` (any `IndexError` gives 401 "Invalid token
format"), 401 "Authentication required" when the header is absent/falsy or the
extracted token is empty, then `jwt.decode` mapping `ExpiredSignatureError` to
401 "Token expired" and `InvalidTokenError` to 401 "Invalid token". -/
def verify_token (secret : String) (now : Nat) (authHeader : Option String) : AuthOutcome :=
  let tokenStep : Except (Nat × String) (Option String) :=
    match authHeader with
    | none => .ok none
    | some h =>
      if h = "" then
        .ok none
      else
        match (pySplit ' ' h)[1]? with
        | some t => .ok (some t)
        | none => .error (401, "Invalid token format")
  match tokenStep with
  | .error e => .error e
  | .ok none => .error (401, "Authentication required")
  | .ok (some t) =>
    if t = "" then
      .error (401, "Authentication required")
    else
      match jwt_decode secret now t with
      | .ok claims => .ok (claims.user_id, claims.username)
      | .error .expired => .error (401, "Token expired")
      | .error .invalid => .error (401, "Invalid token")

/-- JSON body of the request to `POST /api/auth/register`; a `none` field is a
missing key.  A missing or falsy (empty-object) body is modelled as `none` at
the call sites, which takes the same 400 branch as a missing key. -/
structure RegisterReq where
  username? : Option String
  email? : Option String
  password? : Option String

/-- JSON body of the request to `POST /api/auth/login`. -/
structure LoginReq where
  username? : Option String
  password? : Option String

/-- JSON body of the request to `POST /api/tasks`. -/
structure AddTaskReq where
  text? : Option String

/-- The `validate_username` helper (lines 191–198): at least 3 characters
after stripping, at most 50, and matching `^[a-zA-Z0-9_]+$`. -/
def validate_username (username : String) : Option String :=
  if username = "" ∨ (pyStrip username).length < 3 then
    some "Username must be at least 3 characters"
  else if username.length > 50 then
    some "Username must be less than 50 characters"
  else if ¬ (username.data ≠ [] ∧ username.data.all (fun c => c.isAlphanum || c = '_')) then
    some "Username can only contain letters, numbers, and underscores"
  else
    none

/-- Characters allowed in the local part of the email regular expression
`^[a-zA-Z0-9._%+-]+@[a-zA-Z0-9.-]+\.[a-zA-Z]{2,}$`. -/
def isEmailLocalChar (c : Char) : Bool :=
  c.isAlphanum || c = '.' || c = '_' || c = '%' || c = '+' || c = '-'

/-- Characters allowed in the domain part of the email regular expression. -/
def isEmailDomainChar (c : Char) : Bool :=
  c.isAlphanum || c = '.' || c = '-'

/-- Decidable matcher for `^[a-zA-Z0-9._%+-]+@[a-zA-Z0-9.-]+\.[a-zA-Z]{2,}$`.
Neither character class contains `@`, so the string must split as
`local@domain`; the top-level domain is all letters, so the mandatory literal
dot is the last dot of the domain. -/
def emailRegexMatch (email : String) : Bool :=
  match pySplit '@' email with
  | [localPart, domain] =>
    let revDomain := domain.data.reverse
    let tld := (revDomain.takeWhile (fun c => c ≠ '.')).reverse
    let beforeTld := revDomain.dropWhile (fun c => c ≠ '.')
    localPart.data ≠ [] && localPart.data.all isEmailLocalChar &&
      (match beforeTld with
       | d0 :: middleRev =>
         d0 = '.' && middleRev ≠ [] && middleRev.all isEmailDomainChar &&
           tld.length ≥ 2 && tld.all Char.isAlpha
       | [] => false)
  | _ => false

/-- The `validate_email` helper (lines 200–206). -/
def validate_email (email : String) : Option String :=
  if email = "" then
    some "Email is required"
  else if ¬ emailRegexMatch email then
    some "Invalid email format"
  else
    none

/-- The `validate_password` helper (lines 208–215). -/
def validate_password (password : String) : Option String :=
  if password = "" then
    some "Password is required"
  else if password.length < 6 then
    some "Password must be at least 6 characters"
  else if password.length > 128 then
    some "Password must be less than 128 characters"
  else
    none

/-- The `register` handler (lines 218–277).  The fresh salt consumed by
`generate_password_hash` is an explicit argument.  Returns the new database
state and the response. -/
def register (db : DB) (data : Option RegisterReq) (salt : String) : DB × Response :=
  match data with
  | none => (db, (400, errBody "Username, email, and password are required"))
  | some d =>
    match d.username?, d.email?, d.password? with
    | some u0, some e0, some password =>
      let username := pyStrip u0
      let email := pyLower (pyStrip e0)
      match validate_username username with
      | some error => (db, (400, errBody error))
      | none =>
        match validate_email email with
        | some error => (db, (400, errBody error))
        | none =>
          match validate_password password with
          | some error => (db, (400, errBody error))
          | none =>
            if (db.users.find? (fun u => u.username = username)).isSome then
              (db, (400, errBody "Username already exists"))
            else if (db.users.find? (fun u => u.email = email)).isSome then
              (db, (400, errBody "Email already exists"))
            else
              let password_hash := generate_password_hash salt password
              let user_id := db.nextUserId
              let db' : DB :=
                { db with
                  users := db.users ++ [⟨user_id, username, email, password_hash⟩]
                  nextUserId := user_id + 1 }
              (db', (201, Json.obj
                [("message", Json.str "User created successfully"),
                 ("user", Json.obj
                   [("id", Json.num user_id),
                    ("username", Json.str username),
                    ("email", Json.str email)])]))
    | _, _, _ => (db, (400, errBody "Username, email, and password are required"))

/-- Row matcher of the login query
`SELECT * FROM users WHERE username = ? OR email = ?` with parameters
`(username_or_email, username_or_email.lower())`. -/
def loginMatches (identifier : String) (u : User) : Bool :=
  u.username = identifier || u.email = pyLower identifier

/-- The `login` handler (lines 282–334).  `now` is the current time in
seconds; the issued token expires 7 days later. -/
def login (db : DB) (data : Option LoginReq) (secret : String) (now : Nat) : Response :=
  match data with
  | none => (400, errBody "Username and password are required")
  | some d =>
    match d.username?, d.password? with
    | some u0, some password =>
      let username_or_email := pyStrip u0
      if username_or_email = "" ∨ password = "" then
        (400, errBody "Username and password are required")
      else
        match db.users.find? (loginMatches username_or_email) with
        | none => (401, errBody "Invalid username or password")
        | some user =>
          if ¬ check_password_hash user.password_hash password then
            (401, errBody "Invalid username or password")
          else
            let token := jwt_encode secret user.id user.username (now + 7 * 24 * 60 * 60)
            (200, Json.obj
              [("message", Json.str "Login successful"),
               ("token", Json.str token),
               ("user", Json.obj
                 [("id", Json.num user.id),
                  ("username", Json.str user.username),
                  ("email", Json.str user.email)])])
    | _, _ => (400, errBody "Username and password are required")

/-- The `get_current_user` handler body (lines 337–350), after `verify_token`
has attached `current_user_id`:
`SELECT id, username, email FROM users WHERE id = ?`. -/
def get_current_user (db : DB) (current_user_id : Nat) : Response :=
  match db.users.find? (fun u => u.id = current_user_id) with
  | none => (404, errBody "User not found")
  | some u => (200, Json.obj
      [("id", Json.num u.id),
       ("username", Json.str u.username),
       ("email", Json.str u.email)])

/-- JSON rendering of a task row, in schema column order (`SELECT *`), which
is also the key order of the literal dict built in `add_task`. -/
def taskJson (t : Task) : Json :=
  Json.obj
    [("id", Json.num t.id),
     ("user_id", Json.num t.user_id),
     ("text", Json.str t.text),
     ("completed", Json.num t.completed),
     ("pomodoroCount", Json.num t.pomodoroCount)]

/-- Rows of `SELECT * FROM tasks WHERE user_id = ?`, rendered as JSON. -/
def ownerTaskList (db : DB) (uid : Nat) : List Json :=
  (db.tasks.filter (fun t => t.user_id = uid)).map taskJson

/-- The `get_tasks` handler body (lines 353–363). -/
def get_tasks (db : DB) (uid : Nat) : Response :=
  (200, Json.obj [("tasks", Json.arr (ownerTaskList db uid))])

/-- The `add_task` handler body (lines 366–393): 400 when the body or the
`text` key is missing, otherwise insert
`(user_id, text, completed=0, pomodoroCount=0)` and return the new row. -/
def add_task (db : DB) (uid : Nat) (data : Option AddTaskReq) : DB × Response :=
  match data with
  | none => (db, (400, errBody "Task text is required"))
  | some d =>
    match d.text? with
    | none => (db, (400, errBody "Task text is required"))
    | some text =>
      let task_id := db.nextTaskId
      let newTask : Task := ⟨task_id, uid, text, 0, 0⟩
      ({ db with tasks := db.tasks ++ [newTask], nextTaskId := task_id + 1 },
       (201, taskJson newTask))

/-- Row matcher of `WHERE id = ? AND user_id = ?`. -/
def taskMatches (task_id uid : Nat) (t : Task) : Bool :=
  t.id = task_id && t.user_id = uid

/-- The `delete_task` handler body (lines 396–413): 404 when no row matches
`id = ? AND user_id = ?`, otherwise delete the matching rows. -/
def delete_task (db : DB) (uid task_id : Nat) : DB × Response :=
  match db.tasks.find? (taskMatches task_id uid) with
  | none => (db, (404, errBody "Task not found"))
  | some _ =>
    ({ db with tasks := db.tasks.filter (fun t => ¬ taskMatches task_id uid t) },
     (200, Json.obj [("message", Json.str "Task deleted")]))

/-- The `increment_pomodoro` handler body (lines 416–439): 404 when no row
matches, otherwise read the current `pomodoroCount`, `UPDATE` the matching
rows to `count + 1`, re-`SELECT` the row and return it. -/
def increment_pomodoro (db : DB) (uid task_id : Nat) : DB × Response :=
  match db.tasks.find? (taskMatches task_id uid) with
  | none => (db, (404, errBody "Task not found"))
  | some task =>
    let new_count := task.pomodoroCount + 1
    let db' : DB :=
      { db with
        tasks := db.tasks.map (fun t =>
          if taskMatches task_id uid t then { t with pomodoroCount := new_count } else t) }
    match db'.tasks.find? (taskMatches task_id uid) with
    | none => (db', (500, errBody "Internal server error"))
    | some updated_task => (db', (200, taskJson updated_task))

/-- A protected mutating endpoint as routed by Flask: the `verify_token`
decorator runs first and short-circuits, so the handler body runs (and can
touch the database) only on auth success. -/
def protectedCall (secret : String) (now : Nat) (authHeader : Option String)
    (db : DB) (handler : DB → Nat → DB × Response) : DB × Response :=
  match verify_token secret now authHeader with
  | .error (code, msg) => (db, (code, errBody msg))
  | .ok (uid, _) => handler db uid

section SupportLemmas

theorem string_mk_data (s : String) : String.mk s.data = s := by
  cases s; rfl

theorem lowerChar_idem (c : Char) : lowerChar (lowerChar c) = lowerChar c := by
  unfold lowerChar
  by_cases h : 65 ≤ c.toNat ∧ c.toNat ≤ 90
  · have hlt : c.toNat + 32 < 55296 := by omega
    have ht : (Char.ofNat (c.toNat + 32)).toNat = c.toNat + 32 := toNat_ofNat_of_lt hlt
    rw [if_pos h, if_neg]
    rw [ht]
    omega
  · rw [if_neg h, if_neg h]

theorem lowerChar_ne_of_ne {c d : Char} (hd2 : ¬ (97 ≤ d.toNat ∧ d.toNat ≤ 122))
    (h : c ≠ d) : lowerChar c ≠ d := by
  unfold lowerChar
  by_cases hc : 65 ≤ c.toNat ∧ c.toNat ≤ 90
  · have hlt : c.toNat + 32 < 55296 := by omega
    have ht : (Char.ofNat (c.toNat + 32)).toNat = c.toNat + 32 := toNat_ofNat_of_lt hlt
    rw [if_pos hc]
    intro heq
    have : (Char.ofNat (c.toNat + 32)).toNat = d.toNat := by rw [heq]
    omega
  · rw [if_neg hc]; exact h

theorem pyLower_idem (s : String) : pyLower (pyLower s) = pyLower s := by
  simp [pyLower, List.map_map, Function.comp_def, lowerChar_idem]

theorem atSign_mem_pyLower {s : String} : '@' ∈ (pyLower s).data ↔ '@' ∈ s.data := by
  have hd2 : ¬ (97 ≤ '@'.toNat ∧ '@'.toNat ≤ 122) := by decide
  simp only [pyLower, List.mem_map]
  constructor
  · rintro ⟨c, hc, hlc⟩
    by_cases hca : c = '@'
    · exact hca ▸ hc
    · exact absurd hlc (lowerChar_ne_of_ne hd2 hca)
  · intro h
    exact ⟨'@', h, by decide⟩

theorem splitChar_ne_nil (sep : Char) (xs : List Char) : splitChar sep xs ≠ [] := by
  induction xs with
  | nil => simp [splitChar]
  | cons c cs ih =>
    simp only [splitChar]
    by_cases hc : c = sep
    · simp [hc]
    · rw [if_neg hc]
      cases hng : splitChar sep cs with
      | nil => exact absurd hng ih
      | cons g gs => simp

theorem digit_chars_natStr {n : Nat} : ∀ c ∈ (natStr n).data, 48 ≤ c.toNat ∧ c.toNat ≤ 57 := by
  unfold natStr
  by_cases hn : n = 0
  · simp only [hn, if_pos rfl]
    intro c hc
    have : c = '0' := by simpa using hc
    subst this; decide
  · rw [if_neg hn]
    intro c hc
    simp only [List.mem_map] at hc
    obtain ⟨d, hd, hcd⟩ := hc
    rw [List.mem_reverse] at hd
    have hdlt : d < 10 := toDigitsRev_digits_lt d hd
    have hvalid : 48 + d < 55296 := by omega
    subst hcd
    rw [toNat_ofNat_of_lt hvalid]
    omega

theorem natStr_no_bar {n : Nat} : '|' ∉ (natStr n).data := by
  intro h
  have := digit_chars_natStr '|' h
  revert this; decide

theorem natStr_no_space {n : Nat} : ' ' ∉ (natStr n).data := by
  intro h
  have := digit_chars_natStr ' ' h
  revert this; decide

theorem charsToNat?_natStr (n : Nat) : charsToNat? (natStr n).data = some n := by
  have hall : ∀ c ∈ (natStr n).data, 48 ≤ c.toNat ∧ c.toNat ≤ 57 := digit_chars_natStr
  unfold charsToNat?
  rw [if_pos]
  · congr 1
    unfold natStr
    by_cases hn : n = 0
    · subst hn; rfl
    · rw [if_neg hn]
      show digitsVal ((((toDigitsRev n n).reverse.map (fun d => Char.ofNat (48 + d))).map
        (fun c => c.toNat - 48)).reverse) = n
      rw [List.map_map]
      have hmap : (toDigitsRev n n).reverse.map
          ((fun c => c.toNat - 48) ∘ (fun d => Char.ofNat (48 + d))) = (toDigitsRev n n).reverse := by
        conv_rhs => rw [← List.map_id ((toDigitsRev n n).reverse)]
        apply List.map_congr_left
        intro d hd
        rw [List.mem_reverse] at hd
        have hdlt : d < 10 := toDigitsRev_digits_lt d hd
        simp only [Function.comp_apply, id_eq]
        rw [toNat_ofNat_of_lt (by omega)]
        omega
      rw [hmap, List.reverse_reverse]
      exact digitsVal_toDigitsRev (Nat.le_refl n)
  · constructor
    · unfold natStr
      by_cases hn : n = 0
      · subst hn; decide
      · rw [if_neg hn]
        simp only [ne_eq, List.map_eq_nil_iff, List.reverse_eq_nil_iff]
        exact toDigitsRev_ne_nil hn (Nat.le_refl n)
    · rw [List.all_eq_true]
      intro c hc
      have := hall c hc
      simp only [decide_eq_true_eq]
      omega

theorem find?_eq_of_unique {α : Type} {p : α → Bool} {l : List α} {x : α}
    (hx : x ∈ l) (hpx : p x = true) (huniq : ∀ y ∈ l, p y = true → y = x) :
    l.find? p = some x := by
  induction l with
  | nil => cases hx
  | cons a l ih =>
    by_cases hpa : p a = true
    · have : a = x := huniq a (List.mem_cons_self a l) hpa
      subst this
      simp [List.find?, hpa]
    · rw [List.find?_cons_of_neg _ (by simpa using hpa)]
      have hxl : x ∈ l := by
        rcases List.mem_cons.mp hx with h | h
        · exact absurd (h ▸ hpx) hpa
        · exact h
      exact ih hxl (fun y hy hpy => huniq y (List.mem_cons_of_mem a hy) hpy)

end SupportLemmas

/-- Concrete two-user database used by witnesses: alice (id 1) and bob
(id 2); bob owns task 5. -/
def dbW1 : DB :=
  ⟨[⟨1, "alice", "a@x.com", "salt1$secret1"⟩, ⟨2, "bob", "b@y.com", "salt2$secret2"⟩],
   [⟨5, 2, "bobs task", 0, 3⟩], 3, 6⟩

/-- C1: if no task with id `task_id` is owned by `uid` — including when such a
task exists but belongs to a different user — then `delete_task` and
`increment_pomodoro` both return 404 "Task not found" (never a distinct
"forbidden" result) and leave the database, hence every other user's tasks,
unchanged. -/
theorem notOwned_delete_increment_404 (db : DB) (uid task_id : Nat)
    (h : ∀ t ∈ db.tasks, ¬ (t.id = task_id ∧ t.user_id = uid)) :
    delete_task db uid task_id = (db, (404, errBody "Task not found")) ∧
    increment_pomodoro db uid task_id = (db, (404, errBody "Task not found")) := by
  have hfind : db.tasks.find? (taskMatches task_id uid) = none := by
    rw [List.find?_eq_none]
    intro t ht
    simp only [taskMatches, Bool.and_eq_true, decide_eq_true_eq, not_and]
    intro h1 h2
    exact h t ht ⟨h1, h2⟩
  constructor
  · simp [delete_task, hfind]
  · simp [increment_pomodoro, hfind]

/-- Witness for C1: alice (uid 1) targets bob's task 5; both operations give
404 and the database is unchanged. -/
theorem notOwned_delete_increment_404_witness :
    (∀ t ∈ dbW1.tasks, ¬ (t.id = 5 ∧ t.user_id = 1)) ∧
    delete_task dbW1 1 5 = (dbW1, (404, errBody "Task not found")) ∧
    increment_pomodoro dbW1 1 5 = (dbW1, (404, errBody "Task not found")) :=
  ⟨by decide, notOwned_delete_increment_404 dbW1 1 5 (by decide)⟩

/-- C3 counterexample: `add_task` does not reject an empty `text`.  With
`text = ""` the response is 201 and a task row with empty text is inserted,
contradicting "task creation fails with a ValidationError (400) whenever the
text field is absent or is an empty string, and no task row is inserted". -/
theorem add_task_empty_text_counterexample :
    (add_task dbW1 1 (some ⟨some ""⟩)).2.1 = 201 ∧
    (add_task dbW1 1 (some ⟨some ""⟩)).1.tasks =
      dbW1.tasks ++ [⟨6, 1, "", 0, 0⟩] :=
  ⟨rfl, rfl⟩

/-- C3 amended: creation fails with 400 (and no row is inserted) exactly when
the body or its `text` key is absent; when `text` is present — whether empty
or not — a row is inserted and the created task is returned with 201. -/
theorem add_task_validation (db : DB) (uid : Nat) (text : String) :
    add_task db uid none = (db, (400, errBody "Task text is required")) ∧
    add_task db uid (some ⟨none⟩) = (db, (400, errBody "Task text is required")) ∧
    add_task db uid (some ⟨some text⟩) =
      ({ db with
          tasks := db.tasks ++ [⟨db.nextTaskId, uid, text, 0, 0⟩],
          nextTaskId := db.nextTaskId + 1 },
       (201, taskJson ⟨db.nextTaskId, uid, text, 0, 0⟩)) :=
  ⟨rfl, rfl, rfl⟩

/-- C10: frame property of the task operations.  None of them touches the
`users` table; `delete_task` and `increment_pomodoro` leave every task row
that is not the targeted `(task_id, uid)` row exactly as it was; `add_task`
keeps every existing row; and afterwards every row is an old row or the
targeted/new one. -/
theorem task_ops_frame (db : DB) (uid task_id : Nat) (data : Option AddTaskReq) :
    ((add_task db uid data).1.users = db.users ∧
     (delete_task db uid task_id).1.users = db.users ∧
     (increment_pomodoro db uid task_id).1.users = db.users) ∧
    (∀ t ∈ db.tasks, ¬ (t.id = task_id ∧ t.user_id = uid) →
      t ∈ (delete_task db uid task_id).1.tasks ∧
      t ∈ (increment_pomodoro db uid task_id).1.tasks) ∧
    (∀ t ∈ db.tasks, t ∈ (add_task db uid data).1.tasks) ∧
    (∀ t ∈ (delete_task db uid task_id).1.tasks, t ∈ db.tasks) ∧
    (∀ t ∈ (increment_pomodoro db uid task_id).1.tasks,
      t ∈ db.tasks ∨ (t.id = task_id ∧ t.user_id = uid)) ∧
    (∀ t ∈ (add_task db uid data).1.tasks,
      t ∈ db.tasks ∨ (t.id = db.nextTaskId ∧ t.user_id = uid)) := by
  have hmatch : ∀ t : Task, taskMatches task_id uid t = true ↔ (t.id = task_id ∧ t.user_id = uid) := by
    intro t
    simp [taskMatches]
  refine ⟨⟨?_, ?_, ?_⟩, ?_, ?_, ?_, ?_, ?_⟩
  · rcases data with _ | ⟨_ | text⟩ <;> rfl
  · unfold delete_task
    cases db.tasks.find? (taskMatches task_id uid) <;> rfl
  · unfold increment_pomodoro
    cases hf : db.tasks.find? (taskMatches task_id uid) with
    | none => rfl
    | some task =>
      simp only
      cases (db.tasks.map fun t =>
          if taskMatches task_id uid t then { t with pomodoroCount := task.pomodoroCount + 1 } else t).find?
          (taskMatches task_id uid) <;> rfl
  · intro t ht hnot
    constructor
    · unfold delete_task
      cases db.tasks.find? (taskMatches task_id uid) with
      | none => exact ht
      | some task =>
        simp only
        rw [List.mem_filter]
        refine ⟨ht, ?_⟩
        simp only [decide_eq_true_eq]
        intro hm
        exact hnot ((hmatch t).mp hm)
    · unfold increment_pomodoro
      cases hf : db.tasks.find? (taskMatches task_id uid) with
      | none => exact ht
      | some task =>
        have hkeep : (if taskMatches task_id uid t then { t with pomodoroCount := task.pomodoroCount + 1 } else t) = t := by
          rw [if_neg]
          intro hm
          exact hnot ((hmatch t).mp hm)
        simp only
        cases (db.tasks.map fun s =>
            if taskMatches task_id uid s then { s with pomodoroCount := task.pomodoroCount + 1 } else s).find?
            (taskMatches task_id uid) with
        | none =>
          simp only
          exact hkeep ▸ List.mem_map_of_mem _ ht
        | some updated =>
          simp only
          exact hkeep ▸ List.mem_map_of_mem _ ht
  · intro t ht
    rcases data with _ | ⟨_ | text⟩
    · exact ht
    · exact ht
    · simp only [add_task]
      exact List.mem_append_left _ ht
  · intro t ht
    unfold delete_task at ht
    cases hf : db.tasks.find? (taskMatches task_id uid) with
    | none =>
      rw [hf] at ht
      exact ht
    | some task =>
      rw [hf] at ht
      simp only at ht
      exact (List.mem_filter.mp ht).1
  · intro t ht
    unfold increment_pomodoro at ht
    cases hf : db.tasks.find? (taskMatches task_id uid) with
    | none =>
      rw [hf] at ht
      exact Or.inl ht
    | some task =>
      rw [hf] at ht
      simp only at ht
      have hmem : t ∈ db.tasks.map fun s =>
          if taskMatches task_id uid s then { s with pomodoroCount := task.pomodoroCount + 1 } else s := by
        cases hg : (db.tasks.map fun s =>
            if taskMatches task_id uid s then { s with pomodoroCount := task.pomodoroCount + 1 } else s).find?
            (taskMatches task_id uid) with
        | none =>
          rw [hg] at ht
          exact ht
        | some updated =>
          rw [hg] at ht
          exact ht
      rw [List.mem_map] at hmem
      obtain ⟨s, hs, hst⟩ := hmem
      by_cases hms : taskMatches task_id uid s = true
      · right
        rw [if_pos hms] at hst
        have hsm := (hmatch s).mp hms
        subst hst
        exact ⟨hsm.1, hsm.2⟩
      · left
        rw [if_neg hms] at hst
        exact hst ▸ hs
  · intro t ht
    rcases data with _ | ⟨_ | text⟩
    · exact Or.inl ht
    · exact Or.inl ht
    · simp only [add_task] at ht
      rcases List.mem_append.mp ht with h | h
      · exact Or.inl h
      · right
        have : t = ⟨db.nextTaskId, uid, text, 0, 0⟩ := by simpa using h
        subst this
        exact ⟨rfl, rfl⟩

theorem taskMatches_iff (task_id uid : Nat) (t : Task) :
    taskMatches task_id uid t = true ↔ (t.id = task_id ∧ t.user_id = uid) := by
  simp [taskMatches]

theorem find?_task_unique {l : List Task} {task : Task} {task_id uid : Nat}
    (hn : (l.map Task.id).Nodup) (hmem : task ∈ l)
    (hid : task.id = task_id) (huid : task.user_id = uid) :
    l.find? (taskMatches task_id uid) = some task := by
  apply find?_eq_of_unique hmem
  · rw [taskMatches_iff]
    exact ⟨hid, huid⟩
  · intro y hy hpy
    have hyid : y.id = task.id := by
      rw [hid]
      exact ((taskMatches_iff task_id uid y).mp hpy).1
    exact List.inj_on_of_nodup_map hn hy hmem hyid

theorem inc_map_ids (l : List Task) (task_id uid c : Nat) :
    ((l.map (fun t => if taskMatches task_id uid t then { t with pomodoroCount := c } else t)).map
      Task.id) = l.map Task.id := by
  rw [List.map_map]
  apply List.map_congr_left
  intro t _
  by_cases h : taskMatches task_id uid t = true
  · simp [h]
  · simp [h]

/-- Functional specification of one `increment_pomodoro` call on an owned
task, provided task ids are unique (they are: `id` is the AUTOINCREMENT
primary key): the matched row's count is bumped by one and the post-increment
row is returned with 200. -/
theorem increment_pomodoro_spec (db : DB) (uid task_id : Nat) (task : Task)
    (hn : (db.tasks.map Task.id).Nodup) (hmem : task ∈ db.tasks)
    (hid : task.id = task_id) (huid : task.user_id = uid) :
    increment_pomodoro db uid task_id =
      ({ db with tasks := db.tasks.map (fun t =>
          if taskMatches task_id uid t then { t with pomodoroCount := task.pomodoroCount + 1 } else t) },
       (200, taskJson { task with pomodoroCount := task.pomodoroCount + 1 })) := by
  have hfind := find?_task_unique hn hmem hid huid
  unfold increment_pomodoro
  rw [hfind]
  simp only
  have hmem2 : ({ task with pomodoroCount := task.pomodoroCount + 1 } : Task) ∈
      db.tasks.map (fun t =>
        if taskMatches task_id uid t then { t with pomodoroCount := task.pomodoroCount + 1 } else t) := by
    have hmt : taskMatches task_id uid task = true := (taskMatches_iff task_id uid task).mpr ⟨hid, huid⟩
    have := List.mem_map_of_mem
      (fun t => if taskMatches task_id uid t then { t with pomodoroCount := task.pomodoroCount + 1 } else t) hmem
    simpa [hmt] using this
  have hn2 : ((db.tasks.map (fun t =>
      if taskMatches task_id uid t then { t with pomodoroCount := task.pomodoroCount + 1 } else t)).map
      Task.id).Nodup := by
    rw [inc_map_ids]
    exact hn
  have hfind2 := find?_task_unique hn2 hmem2 hid huid
  rw [hfind2]

/-- Repeated sequential `increment_pomodoro` calls: the database state after
`k` increments of task `task_id` by its owner `uid`. -/
def incIter (db : DB) (uid task_id : Nat) : Nat → DB
  | 0 => db
  | k + 1 => (increment_pomodoro (incIter db uid task_id k) uid task_id).1

theorem incIter_invariant (db : DB) (uid task_id : Nat) (text : String) (comp : Nat)
    (hn : (db.tasks.map Task.id).Nodup)
    (hmem : (⟨task_id, uid, text, comp, 0⟩ : Task) ∈ db.tasks) :
    ∀ k, (⟨task_id, uid, text, comp, k⟩ : Task) ∈ (incIter db uid task_id k).tasks ∧
      ((incIter db uid task_id k).tasks.map Task.id).Nodup := by
  intro k
  induction k with
  | zero => exact ⟨hmem, hn⟩
  | succ k ih =>
    obtain ⟨hm, hnd⟩ := ih
    have hspec := increment_pomodoro_spec (incIter db uid task_id k) uid task_id
      ⟨task_id, uid, text, comp, k⟩ hnd hm rfl rfl
    have hstep : incIter db uid task_id (k + 1) =
        (increment_pomodoro (incIter db uid task_id k) uid task_id).1 := rfl
    rw [hstep, hspec]
    dsimp only
    constructor
    · have hmt : taskMatches task_id uid (⟨task_id, uid, text, comp, k⟩ : Task) = true := by
        rw [taskMatches_iff]; exact ⟨rfl, rfl⟩
      have := List.mem_map_of_mem
        (fun t => if taskMatches task_id uid t then { t with pomodoroCount := k + 1 } else t) hm
      simpa [hmt] using this
    · rw [inc_map_ids]
      exact hnd

/-- C4: `increment_pomodoro` on a task owned by the caller reads the current
count, writes `count + 1`, and returns the post-increment row with 200 (first
conjunct); consequently `N` sequential increments of a task created with
count 0 show `k + 1` in the returned row of the `(k+1)`-st call and leave the
task at count `N` (remaining conjuncts).  Task ids are assumed unique, the
AUTOINCREMENT primary-key invariant. -/
theorem increment_pomodoro_counts (db : DB) (uid task_id : Nat) (text : String)
    (comp : Nat) (N : Nat)
    (hn : (db.tasks.map Task.id).Nodup)
    (hmem : (⟨task_id, uid, text, comp, 0⟩ : Task) ∈ db.tasks) :
    (∀ task ∈ db.tasks, task.user_id = uid →
      increment_pomodoro db uid task.id =
        ({ db with tasks := db.tasks.map (fun t =>
            if taskMatches task.id uid t then { t with pomodoroCount := task.pomodoroCount + 1 } else t) },
         (200, taskJson { task with pomodoroCount := task.pomodoroCount + 1 }))) ∧
    (∀ k, k < N →
      (increment_pomodoro (incIter db uid task_id k) uid task_id).2 =
        (200, taskJson ⟨task_id, uid, text, comp, k + 1⟩)) ∧
    (⟨task_id, uid, text, comp, N⟩ : Task) ∈ (incIter db uid task_id N).tasks := by
  refine ⟨?_, ?_, (incIter_invariant db uid task_id text comp hn hmem N).1⟩
  · intro task hmemT huid
    exact increment_pomodoro_spec db uid task.id task hn hmemT rfl huid
  · intro k _
    obtain ⟨hm, hnd⟩ := incIter_invariant db uid task_id text comp hn hmem k
    have hspec := increment_pomodoro_spec (incIter db uid task_id k) uid task_id
      ⟨task_id, uid, text, comp, k⟩ hnd hm rfl rfl
    rw [hspec]

/-- Concrete one-user database with a fresh zero-count task, used by the C4
witness. -/
def dbW2 : DB := ⟨[⟨1, "alice", "a@x.com", "salt1$secret1"⟩], [⟨7, 1, "pomo", 0, 0⟩], 2, 8⟩

/-- Witness for C4: three sequential increments of task 7 return count 3 on
the third response and leave the stored count at 3. -/
theorem increment_pomodoro_counts_witness :
    ((dbW2.tasks.map Task.id).Nodup ∧ (⟨7, 1, "pomo", 0, 0⟩ : Task) ∈ dbW2.tasks) ∧
    (increment_pomodoro (incIter dbW2 1 7 2) 1 7).2 = (200, taskJson ⟨7, 1, "pomo", 0, 3⟩) ∧
    (⟨7, 1, "pomo", 0, 3⟩ : Task) ∈ (incIter dbW2 1 7 3).tasks :=
  ⟨⟨by decide, by decide⟩,
   (increment_pomodoro_counts dbW2 1 7 "pomo" 0 3 (by decide) (by decide)).2.1 2 (by decide),
   (increment_pomodoro_counts dbW2 1 7 "pomo" 0 3 (by decide) (by decide)).2.2⟩

theorem taskJson_id_eq {a b : Task} (h : taskJson a = taskJson b) : a.id = b.id := by
  simp only [taskJson, Json.obj.injEq, List.cons.injEq, Prod.mk.injEq, Json.num.injEq,
    Json.str.injEq, true_and, and_true] at h
  exact h.1

/-- C5 round-trip: creating a task with non-empty (indeed any) text makes a
row with that text, `completed = 0` (false) and `pomodoroCount = 0` appear in
the owner's task list; deleting it by its id succeeds with 200, restores the
owner's list to what it was before, and in particular the created task is
absent from the subsequent list.  The hypothesis is the AUTOINCREMENT
freshness invariant: every existing row id is below `nextTaskId`. -/
theorem create_list_delete_roundtrip (db : DB) (uid : Nat) (text : String)
    (hfresh : ∀ t ∈ db.tasks, t.id < db.nextTaskId) :
    taskJson ⟨db.nextTaskId, uid, text, 0, 0⟩ ∈
      ownerTaskList (add_task db uid (some ⟨some text⟩)).1 uid ∧
    (delete_task (add_task db uid (some ⟨some text⟩)).1 uid db.nextTaskId).2 =
      (200, Json.obj [("message", Json.str "Task deleted")]) ∧
    ownerTaskList (delete_task (add_task db uid (some ⟨some text⟩)).1 uid db.nextTaskId).1 uid =
      ownerTaskList db uid ∧
    ∀ j ∈ ownerTaskList (delete_task (add_task db uid (some ⟨some text⟩)).1 uid db.nextTaskId).1 uid,
      j ≠ taskJson ⟨db.nextTaskId, uid, text, 0, 0⟩ := by
  set newTask : Task := ⟨db.nextTaskId, uid, text, 0, 0⟩ with hnew
  have hdb1 : (add_task db uid (some ⟨some text⟩)).1.tasks = db.tasks ++ [newTask] := rfl
  have hnomatch : ∀ t ∈ db.tasks, ¬ taskMatches db.nextTaskId uid t = true := by
    intro t ht hm
    have := ((taskMatches_iff db.nextTaskId uid t).mp hm).1
    have := hfresh t ht
    omega
  have hfind : (db.tasks ++ [newTask]).find? (taskMatches db.nextTaskId uid) = some newTask := by
    rw [List.find?_append]
    have h1 : db.tasks.find? (taskMatches db.nextTaskId uid) = none :=
      List.find?_eq_none.mpr hnomatch
    have h2 : [newTask].find? (taskMatches db.nextTaskId uid) = some newTask := by
      have : taskMatches db.nextTaskId uid newTask = true := by
        rw [taskMatches_iff]; exact ⟨rfl, rfl⟩
      simp [List.find?, this]
    rw [h1, h2]
    rfl
  have hdel : delete_task (add_task db uid (some ⟨some text⟩)).1 uid db.nextTaskId =
      ({ (add_task db uid (some ⟨some text⟩)).1 with
          tasks := (db.tasks ++ [newTask]).filter (fun t => ¬ taskMatches db.nextTaskId uid t) },
       (200, Json.obj [("message", Json.str "Task deleted")])) := by
    unfold delete_task
    rw [hdb1, hfind]
  have hfiltered : (db.tasks ++ [newTask]).filter (fun t => ¬ taskMatches db.nextTaskId uid t) =
      db.tasks := by
    rw [List.filter_append]
    have h1 : db.tasks.filter (fun t => ¬ taskMatches db.nextTaskId uid t) = db.tasks := by
      apply List.filter_eq_self.mpr
      intro t ht
      simpa using hnomatch t ht
    have h2 : ([newTask].filter (fun t => ¬ taskMatches db.nextTaskId uid t)) = [] := by
      have : taskMatches db.nextTaskId uid newTask = true := by
        rw [taskMatches_iff]; exact ⟨rfl, rfl⟩
      simp [List.filter, this]
    rw [h1, h2, List.append_nil]
  refine ⟨?_, ?_, ?_, ?_⟩
  · unfold ownerTaskList
    rw [hdb1]
    apply List.mem_map_of_mem
    rw [List.mem_filter]
    refine ⟨List.mem_append_right _ (List.mem_singleton_self _), by simp⟩
  · rw [hdel]
  · unfold ownerTaskList
    rw [hdel]
    simp only
    rw [hfiltered]
  · intro j hj
    rw [hdel] at hj
    unfold ownerTaskList at hj
    simp only at hj
    rw [hfiltered] at hj
    rw [List.mem_map] at hj
    obtain ⟨t, htf, hjt⟩ := hj
    have htmem : t ∈ db.tasks := (List.mem_filter.mp htf).1
    have hlt := hfresh t htmem
    intro heq
    have hids : t.id = newTask.id := taskJson_id_eq (hjt ▸ heq)
    have h2 : t.id = db.nextTaskId := by simpa [hnew] using hids
    omega

/-- Witness for C5: alice creates "Write spec" in `dbW1`, it shows up in her
list with completed 0 and count 0, and deleting it removes it again. -/
theorem create_list_delete_roundtrip_witness :
    (∀ t ∈ dbW1.tasks, t.id < dbW1.nextTaskId) ∧
    (taskJson ⟨dbW1.nextTaskId, 1, "Write spec", 0, 0⟩ ∈
      ownerTaskList (add_task dbW1 1 (some ⟨some "Write spec"⟩)).1 1 ∧
    (delete_task (add_task dbW1 1 (some ⟨some "Write spec"⟩)).1 1 dbW1.nextTaskId).2 =
      (200, Json.obj [("message", Json.str "Task deleted")]) ∧
    ownerTaskList (delete_task (add_task dbW1 1 (some ⟨some "Write spec"⟩)).1 1 dbW1.nextTaskId).1 1 =
      ownerTaskList dbW1 1 ∧
    ∀ j ∈ ownerTaskList (delete_task (add_task dbW1 1 (some ⟨some "Write spec"⟩)).1 1 dbW1.nextTaskId).1 1,
      j ≠ taskJson ⟨dbW1.nextTaskId, 1, "Write spec", 0, 0⟩) :=
  ⟨by decide, create_list_delete_roundtrip dbW1 1 "Write spec" (by decide)⟩

theorem pySplit_cons_of_sep {sep : Char} {w : List Char} (t : List Char) (hw : sep ∉ w) :
    splitChar sep (w ++ sep :: t) = w :: splitChar sep t :=
  splitChar_append t hw

theorem strData_triple (w t : String) (c : Char) :
    (w ++ String.mk [c] ++ t).data = w.data ++ c :: t.data := by
  rw [strData_append, strData_append]
  simp

/-- C2 counterexample: the middleware never checks the scheme word of the
Authorization header.  The concrete header below starts with "Token", not
"Bearer", yet `verify_token` accepts it, attaches the identity, and
`protectedCall` runs the handler (which inserts a row) — contradicting
"fails with MalformedAuthHeader (401) and the handler is never invoked". -/
theorem verify_token_scheme_counterexample :
    (pySplit ' ' ("Token " ++ jwt_encode "s" 1 "alice" 100)).head? = some "Token" ∧
    "Token" ≠ "Bearer" ∧
    verify_token "s" 0 (some ("Token " ++ jwt_encode "s" 1 "alice" 100)) = .ok (1, "alice") ∧
    (protectedCall "s" 0 (some ("Token " ++ jwt_encode "s" 1 "alice" 100)) dbW1
      (fun db uid => add_task db uid (some ⟨some "smuggled"⟩))).1.tasks =
      dbW1.tasks ++ [⟨6, 1, "smuggled", 0, 0⟩] :=
  ⟨rfl, by decide, rfl, rfl⟩

/-- C2 amended: a missing header, an empty header, or an empty token segment
after the first space fail with 401 "Authentication required"; a non-empty
header with no second space-separated segment (including a bare "Bearer")
fails with 401 "Invalid token format"; and the scheme word is never checked —
a header `w ++ " " ++ t` is processed exactly as `"Bearer " ++ t`, so the
handler is reached whenever the token verifies, whatever the scheme word. -/
theorem verify_token_amended (secret : String) (now : Nat) (w t : String)
    (hw : ' ' ∉ w.data) (hwne : w ≠ "") :
    verify_token secret now none = .error (401, "Authentication required") ∧
    verify_token secret now (some "") = .error (401, "Authentication required") ∧
    verify_token secret now (some w) = .error (401, "Invalid token format") ∧
    verify_token secret now (some (w ++ " ")) = .error (401, "Authentication required") ∧
    verify_token secret now (some (w ++ " " ++ t)) =
      verify_token secret now (some ("Bearer " ++ t)) := by
  have hsplitw : pySplit ' ' w = [w] := by
    unfold pySplit
    rw [splitChar_of_not_mem hw]
    simp [string_mk_data]
  have hdata : ∀ s : String, (w ++ " " ++ s).data = w.data ++ ' ' :: s.data := by
    intro s
    exact strData_triple w s ' '
  have hBdata : ∀ s : String, ("Bearer " ++ s).data = "Bearer".data ++ ' ' :: s.data := by
    intro s
    rw [strData_append]
    rfl
  have hsplit2 : ∀ s : String, pySplit ' ' (w ++ " " ++ s) = w :: pySplit ' ' s := by
    intro s
    unfold pySplit
    rw [hdata s, splitChar_append _ hw]
    simp [string_mk_data]
  have hsplitB : ∀ s : String, pySplit ' ' ("Bearer " ++ s) = "Bearer" :: pySplit ' ' s := by
    intro s
    unfold pySplit
    rw [hBdata s, splitChar_append _ (by decide)]
    simp [string_mk_data]
  have hne : ∀ s : String, w ++ " " ++ s ≠ "" := by
    intro s h
    have : (w ++ " " ++ s).data = [] := by rw [h]
    rw [hdata s] at this
    simp at this
  have hneB : ∀ s : String, "Bearer " ++ s ≠ "" := by
    intro s h
    have : ("Bearer " ++ s).data = [] := by rw [h]
    rw [hBdata s] at this
    simp at this
  have hdataE : (w ++ " ").data = w.data ++ ' ' :: ([] : List Char) := by
    rw [strData_append]
  have hsplitE : pySplit ' ' (w ++ " ") = [w, ""] := by
    unfold pySplit
    rw [hdataE, splitChar_append _ hw]
    simp [splitChar, string_mk_data]
  have hneE : w ++ " " ≠ "" := by
    intro h
    have hd : (w ++ " ").data = [] := by rw [h]
    rw [hdataE] at hd
    simp at hd
  refine ⟨rfl, rfl, ?_, ?_, ?_⟩
  · simp [verify_token, hwne, hsplitw]
  · simp [verify_token, hneE, hsplitE]
  · simp only [verify_token, hne t, hneB t, hsplit2 t, hsplitB t, if_neg]
    simp

/-- Witness for C2 amended, at scheme word "Token" and a concrete valid
token: the result coincides with the "Bearer" form, here acceptance. -/
theorem verify_token_amended_witness :
    (' ' ∉ "Token".data ∧ "Token" ≠ "") ∧
    verify_token "s" 0 (some "Token") = .error (401, "Invalid token format") ∧
    verify_token "s" 0 (some ("Token " ++ jwt_encode "s" 1 "alice" 100)) =
      verify_token "s" 0 (some ("Bearer " ++ jwt_encode "s" 1 "alice" 100)) :=
  ⟨⟨by decide, by decide⟩,
   (verify_token_amended "s" 0 "Token" (jwt_encode "s" 1 "alice" 100) (by decide) (by decide)).2.2.1,
   (verify_token_amended "s" 0 "Token" (jwt_encode "s" 1 "alice" 100) (by decide) (by decide)).2.2.2.2⟩

/-- Uniqueness invariant of the `users` table: usernames are unique
case-sensitively, emails are unique case-insensitively, and stored emails are
lowercased (fixed points of `pyLower`). -/
def usersInv (db : DB) : Prop :=
  (db.users.map User.username).Nodup ∧
  (db.users.map (fun u => pyLower u.email)).Nodup ∧
  ∀ u ∈ db.users, pyLower u.email = u.email

instance (db : DB) : Decidable (usersInv db) := by
  unfold usersInv
  infer_instance

/-- C6: registering a username that already exists with the exact same case
fails with 400 "Username already exists" and leaves the database unchanged
(first conjunct); registering an email whose lowercasing collides with a
stored email — in particular the same email in any differing letter case —
fails with 400 "Email already exists" and leaves the database unchanged
(second conjunct); and every registration preserves `usersInv`, so username
uniqueness (case-sensitive) and email uniqueness (case-insensitive, stored
lowercased) hold across all users after every registration (third
conjunct). -/
theorem register_uniqueness (db : DB) (salt : String) :
    (∀ u0 e0 pw,
      validate_username (pyStrip u0) = none →
      validate_email (pyLower (pyStrip e0)) = none →
      validate_password pw = none →
      (∃ u ∈ db.users, u.username = pyStrip u0) →
      register db (some ⟨some u0, some e0, some pw⟩) salt =
        (db, (400, errBody "Username already exists"))) ∧
    (∀ u0 e0 pw,
      validate_username (pyStrip u0) = none →
      validate_email (pyLower (pyStrip e0)) = none →
      validate_password pw = none →
      (∀ u ∈ db.users, u.username ≠ pyStrip u0) →
      (∃ u ∈ db.users, u.email = pyLower (pyStrip e0)) →
      register db (some ⟨some u0, some e0, some pw⟩) salt =
        (db, (400, errBody "Email already exists"))) ∧
    (∀ data, usersInv db → usersInv (register db data salt).1) := by
  refine ⟨?_, ?_, ?_⟩
  · intro u0 e0 pw hvu hve hvp hdup
    have hfindU : (db.users.find? (fun u => u.username = pyStrip u0)).isSome = true := by
      rw [List.find?_isSome]
      obtain ⟨u, hu, huu⟩ := hdup
      exact ⟨u, hu, by simp [huu]⟩
    simp [register, hvu, hve, hvp, hfindU]
  · intro u0 e0 pw hvu hve hvp hnou hdup
    have hfindU : (db.users.find? (fun u => u.username = pyStrip u0)).isSome = false := by
      rw [Bool.eq_false_iff]
      intro hs
      rw [List.find?_isSome] at hs
      obtain ⟨u, hu, huu⟩ := hs
      exact hnou u hu (by simpa using huu)
    have hfindE : (db.users.find? (fun u => u.email = pyLower (pyStrip e0))).isSome = true := by
      rw [List.find?_isSome]
      obtain ⟨u, hu, hue⟩ := hdup
      exact ⟨u, hu, by simp [hue]⟩
    simp [register, hvu, hve, hvp, hfindU, hfindE]
  · intro data hinv
    obtain ⟨h1, h2, h3⟩ := hinv
    rcases data with _ | ⟨_ | u0, e0, pw⟩
    · exact ⟨h1, h2, h3⟩
    · exact ⟨h1, h2, h3⟩
    rcases e0 with _ | e0
    · exact ⟨h1, h2, h3⟩
    rcases pw with _ | pw
    · exact ⟨h1, h2, h3⟩
    simp only [register]
    cases hvu : validate_username (pyStrip u0) with
    | some e => exact ⟨h1, h2, h3⟩
    | none =>
    cases hve : validate_email (pyLower (pyStrip e0)) with
    | some e => exact ⟨h1, h2, h3⟩
    | none =>
    cases hvp : validate_password pw with
    | some e => exact ⟨h1, h2, h3⟩
    | none =>
    simp only
    cases hfu : (db.users.find? (fun u => u.username = pyStrip u0)).isSome with
    | true => simp only [if_pos rfl, hfu]; exact ⟨h1, h2, h3⟩
    | false =>
    cases hfe : (db.users.find? (fun u => u.email = pyLower (pyStrip e0))).isSome with
    | true => simp only [hfu, hfe]; exact ⟨h1, h2, h3⟩
    | false =>
    simp only [hfu, hfe, Bool.false_eq_true, if_false]
    have hnoU : ∀ u ∈ db.users, u.username ≠ pyStrip u0 := by
      intro u hu heq
      have : (db.users.find? (fun u => u.username = pyStrip u0)).isSome = true := by
        rw [List.find?_isSome]
        exact ⟨u, hu, by simp [heq]⟩
      rw [hfu] at this
      cases this
    have hnoE : ∀ u ∈ db.users, u.email ≠ pyLower (pyStrip e0) := by
      intro u hu heq
      have : (db.users.find? (fun u => u.email = pyLower (pyStrip e0))).isSome = true := by
        rw [List.find?_isSome]
        exact ⟨u, hu, by simp [heq]⟩
      rw [hfe] at this
      cases this
    refine ⟨?_, ?_, ?_⟩
    · rw [List.map_append, List.nodup_append]
      refine ⟨h1, List.nodup_singleton _, ?_⟩
      intro x hx hx2
      simp only [List.map_cons, List.map_nil, List.mem_singleton] at hx2
      rw [List.mem_map] at hx
      obtain ⟨u, hu, hux⟩ := hx
      exact hnoU u hu (by rw [hux, hx2])
    · rw [List.map_append, List.nodup_append]
      refine ⟨h2, List.nodup_singleton _, ?_⟩
      intro x hx hx2
      simp only [List.map_cons, List.map_nil, List.mem_singleton] at hx2
      rw [List.mem_map] at hx
      obtain ⟨u, hu, hux⟩ := hx
      have hxu : x = u.email := by rw [← hux, h3 u hu]
      have hxlow : x = pyLower (pyStrip e0) := by
        rw [hx2]
        exact (pyLower_idem (pyStrip e0)).symm ▸ pyLower_idem (pyStrip e0)
      exact hnoE u hu (by rw [← hxu, hxlow])
    · intro u hu
      rcases List.mem_append.mp hu with hold | hnew
      · exact h3 u hold
      · have : u = ⟨db.nextUserId, pyStrip u0, pyLower (pyStrip e0),
            generate_password_hash salt pw⟩ := by simpa using hnew
        subst this
        exact pyLower_idem (pyStrip e0)

/-- Witness for C6: in `dbW1`, re-registering username "alice" conflicts,
registering "A@X.com" (case variant of alice's stored "a@x.com") conflicts,
and a fresh registration preserves `usersInv`. -/
theorem register_uniqueness_witness :
    register dbW1 (some ⟨some "alice", some "c@z.com", some "secret9"⟩) "s9" =
      (dbW1, (400, errBody "Username already exists")) ∧
    register dbW1 (some ⟨some "carol", some "A@X.com", some "secret9"⟩) "s9" =
      (dbW1, (400, errBody "Email already exists")) ∧
    usersInv (register dbW1 (some ⟨some "carol", some "c@z.com", some "secret9"⟩) "s9").1 :=
  ⟨(register_uniqueness dbW1 "s9").1 "alice" "c@z.com" "secret9" (by decide) (by decide)
      (by decide) ⟨⟨1, "alice", "a@x.com", "salt1$secret1"⟩, by decide, by decide⟩,
   (register_uniqueness dbW1 "s9").2.1 "carol" "A@X.com" "secret9" (by decide) (by decide)
      (by decide) (by decide) ⟨⟨1, "alice", "a@x.com", "salt1$secret1"⟩, by decide, by decide⟩,
   (register_uniqueness dbW1 "s9").2.2 (some ⟨some "carol", some "c@z.com", some "secret9"⟩)
      (by decide)⟩

/-- Conditions making the login lookup unambiguous, all established by
registration: unique usernames, unique lowercased emails, usernames non-empty
and free of `@`, emails containing `@`. -/
def loginSafety (db : DB) : Prop :=
  (db.users.map User.username).Nodup ∧
  (db.users.map User.email).Nodup ∧
  (∀ u ∈ db.users, pyLower u.email = u.email) ∧
  (∀ u ∈ db.users, u.username.data ≠ []) ∧
  (∀ u ∈ db.users, '@' ∉ u.username.data) ∧
  (∀ u ∈ db.users, '@' ∈ u.email.data)

instance (db : DB) : Decidable (loginSafety db) := by
  unfold loginSafety
  infer_instance

theorem str_eq_empty_iff_data {s : String} : s = "" ↔ s.data = [] := by
  cases s with
  | mk l =>
    constructor
    · intro h
      rw [h]
    · intro h
      simp only at h
      rw [h]

theorem login_find_by_username {db : DB} {user : User} (hS : loginSafety db)
    (hmem : user ∈ db.users) :
    db.users.find? (loginMatches user.username) = some user := by
  obtain ⟨hU, _, _, _, hNoAt, hAt⟩ := hS
  apply find?_eq_of_unique hmem
  · simp [loginMatches]
  · intro y hy hp
    simp only [loginMatches, Bool.or_eq_true, decide_eq_true_eq] at hp
    rcases hp with h | h
    · exact List.inj_on_of_nodup_map hU hy hmem h
    · exfalso
      have h1 : '@' ∈ y.email.data := hAt y hy
      rw [h, atSign_mem_pyLower] at h1
      exact hNoAt user hmem h1

theorem login_find_by_email {db : DB} {user : User} {s : String} (hS : loginSafety db)
    (hmem : user ∈ db.users) (hs : pyLower s = user.email) :
    db.users.find? (loginMatches s) = some user := by
  obtain ⟨_, hE, _, _, hNoAt, hAt⟩ := hS
  apply find?_eq_of_unique hmem
  · simp [loginMatches, hs]
  · intro y hy hp
    simp only [loginMatches, Bool.or_eq_true, decide_eq_true_eq] at hp
    rcases hp with h | h
    · exfalso
      have h1 : '@' ∈ (pyLower s).data := by
        rw [hs]
        exact hAt user hmem
      rw [atSign_mem_pyLower] at h1
      rw [← h] at h1
      exact hNoAt y hy h1
    · exact List.inj_on_of_nodup_map hE hy hmem (h.trans hs)

/-- The 200 body of a successful login for `user` with a token expiring
7 days after `now`. -/
def loginSuccessBody (secret : String) (now : Nat) (user : User) : Json :=
  Json.obj
    [("message", Json.str "Login successful"),
     ("token", Json.str (jwt_encode secret user.id user.username (now + 7 * 24 * 60 * 60))),
     ("user", Json.obj
       [("id", Json.num user.id),
        ("username", Json.str user.username),
        ("email", Json.str user.email)])]

/-- C7: logging in with a stored username (first conjunct) or with any string
whose stripped, lowercased form equals a stored email — the email itself or
any letter-case variant (second conjunct) — together with the correct
password, returns 200 with a token; and every login failing because the
identifier matches no user is answered identically (same 401 status, same
generic body) to every login failing because the password is wrong (third
conjunct). -/
theorem login_success_and_indistinguishable (db : DB) (secret : String) (now : Nat) :
    (∀ user ∈ db.users, ∀ ident pw : String,
      loginSafety db →
      pyStrip ident = user.username →
      pw ≠ "" →
      check_password_hash user.password_hash pw = true →
      login db (some ⟨some ident, some pw⟩) secret now = (200, loginSuccessBody secret now user)) ∧
    (∀ user ∈ db.users, ∀ ident pw : String,
      loginSafety db →
      pyLower (pyStrip ident) = user.email →
      pw ≠ "" →
      check_password_hash user.password_hash pw = true →
      login db (some ⟨some ident, some pw⟩) secret now = (200, loginSuccessBody secret now user)) ∧
    (∀ (dbA dbB : DB) (iA pA iB pB secretA secretB : String) (nowA nowB : Nat) (u : User),
      pyStrip iA ≠ "" → pA ≠ "" →
      dbA.users.find? (loginMatches (pyStrip iA)) = none →
      pyStrip iB ≠ "" → pB ≠ "" →
      dbB.users.find? (loginMatches (pyStrip iB)) = some u →
      check_password_hash u.password_hash pB = false →
      login dbA (some ⟨some iA, some pA⟩) secretA nowA =
        login dbB (some ⟨some iB, some pB⟩) secretB nowB) := by
  refine ⟨?_, ?_, ?_⟩
  · intro user hmem ident pw hS hid hpw hck
    have hne : ¬ (pyStrip ident = "" ∨ pw = "") := by
      rintro (h | h)
      · rw [h] at hid
        exact hS.2.2.2.1 user hmem (str_eq_empty_iff_data.mp hid.symm)
      · exact hpw h
    have hfind : db.users.find? (loginMatches (pyStrip ident)) = some user := by
      rw [hid]
      exact login_find_by_username hS hmem
    simp [login, hne, hfind, hck, loginSuccessBody]
  · intro user hmem ident pw hS hid hpw hck
    have hne : ¬ (pyStrip ident = "" ∨ pw = "") := by
      rintro (h | h)
      · rw [h] at hid
        have : '@' ∈ user.email.data := hS.2.2.2.2.2 user hmem
        rw [← hid] at this
        simp [pyLower] at this
      · exact hpw h
    have hfind : db.users.find? (loginMatches (pyStrip ident)) = some user :=
      login_find_by_email hS hmem hid
    simp [login, hne, hfind, hck, loginSuccessBody]
  · intro dbA dbB iA pA iB pB secretA secretB nowA nowB u hiA hpA hfA hiB hpB hfB hckB
    have hneA : ¬ (pyStrip iA = "" ∨ pA = "") := by
      rintro (h | h)
      · exact hiA h
      · exact hpA h
    have hneB : ¬ (pyStrip iB = "" ∨ pB = "") := by
      rintro (h | h)
      · exact hiB h
      · exact hpB h
    simp [login, hneA, hneB, hfA, hfB, hckB]

/-- Witness for C7: alice logs in by username and by the wrong-case email
"A@x.CoM" with her correct password, both returning her 200 body; and the
response to an unknown identifier equals the response to alice's name with a
wrong password. -/
theorem login_success_and_indistinguishable_witness :
    loginSafety dbW1 ∧
    login dbW1 (some ⟨some "alice", some "secret1"⟩) "sec" 1000 =
      (200, loginSuccessBody "sec" 1000 ⟨1, "alice", "a@x.com", "salt1$secret1"⟩) ∧
    login dbW1 (some ⟨some "A@x.CoM", some "secret1"⟩) "sec" 1000 =
      (200, loginSuccessBody "sec" 1000 ⟨1, "alice", "a@x.com", "salt1$secret1"⟩) ∧
    login dbW1 (some ⟨some "nobody", some "password1"⟩) "k1" 5 =
      login dbW1 (some ⟨some "alice", some "wrongpw"⟩) "k2" 9 :=
  ⟨by decide,
   (login_success_and_indistinguishable dbW1 "sec" 1000).1
     ⟨1, "alice", "a@x.com", "salt1$secret1"⟩ (by decide) "alice" "secret1"
     (by decide) (by decide) (by decide) (by decide),
   (login_success_and_indistinguishable dbW1 "sec" 1000).2.1
     ⟨1, "alice", "a@x.com", "salt1$secret1"⟩ (by decide) "A@x.CoM" "secret1"
     (by decide) (by decide) (by decide) (by decide),
   (login_success_and_indistinguishable dbW1 "k1" 5).2.2 dbW1 dbW1 "nobody" "password1"
     "alice" "wrongpw" "k1" "k2" 5 9 ⟨1, "alice", "a@x.com", "salt1$secret1"⟩
     (by decide) (by decide) (by decide) (by decide) (by decide) (by decide) (by decide)⟩

theorem data_bar_sep (a b : String) : (a ++ "|" ++ b).data = a.data ++ '|' :: b.data := by
  rw [strData_append, strData_append]
  simp [show ("|" : String).data = ['|'] from rfl]

theorem hs256Sig_no_bar (secret payload : String) : '|' ∉ (hs256Sig secret payload).data := by
  unfold hs256Sig
  intro h
  simp only [List.mem_map] at h
  obtain ⟨c, _, hc⟩ := h
  by_cases hcb : c = '|'
  · rw [if_pos hcb] at hc
    cases hc
  · rw [if_neg hcb] at hc
    exact hcb hc

theorem jwtPayloadStr_data (uid : Nat) (uname : String) (exp : Nat) :
    (jwtPayloadStr uid uname exp).data =
      (natStr uid).data ++ '|' :: (uname.data ++ '|' :: (natStr exp).data) := by
  unfold jwtPayloadStr
  rw [show natStr uid ++ "|" ++ uname ++ "|" ++ natStr exp =
    (natStr uid ++ "|" ++ uname) ++ "|" ++ natStr exp from rfl]
  rw [data_bar_sep, data_bar_sep]
  simp

theorem jwt_encode_split {uname : String} (secret : String) (uid exp : Nat)
    (hbar : '|' ∉ uname.data) :
    pySplit '|' (jwt_encode secret uid uname exp) =
      [natStr uid, uname, natStr exp, hs256Sig secret (jwtPayloadStr uid uname exp)] := by
  unfold pySplit jwt_encode
  rw [data_bar_sep, jwtPayloadStr_data, List.append_assoc]
  rw [show ((natStr uid).data ++ ('|' :: (uname.data ++ '|' :: (natStr exp).data) ++
      '|' :: (hs256Sig secret (jwtPayloadStr uid uname exp)).data)) =
    (natStr uid).data ++ '|' :: (uname.data ++ '|' :: ((natStr exp).data ++
      '|' :: (hs256Sig secret (jwtPayloadStr uid uname exp)).data)) by simp]
  rw [splitChar_append _ natStr_no_bar, splitChar_append _ hbar,
    splitChar_append _ natStr_no_bar,
    splitChar_of_not_mem (hs256Sig_no_bar secret (jwtPayloadStr uid uname exp))]
  simp [string_mk_data]

/-- Decode/encode round trip of the modelled JWT: with the right secret the
embedded claims come back exactly (or `expired` once `exp ≤ now`). -/
theorem jwt_decode_encode (secret : String) {uname : String} (uid exp now : Nat)
    (hbar : '|' ∉ uname.data) :
    jwt_decode secret now (jwt_encode secret uid uname exp) =
      if exp ≤ now then .error .expired else .ok ⟨uid, uname, exp⟩ := by
  unfold jwt_decode
  rw [jwt_encode_split secret uid exp hbar]
  simp only [charsToNat?_natStr]
  rw [if_neg (by simp [jwtPayloadStr])]

theorem char_ne_space_of_digit {c : Char} (h : 48 ≤ c.toNat ∧ c.toNat ≤ 57) : c ≠ ' ' := by
  intro hc
  rw [hc] at h
  revert h
  decide

theorem jwt_encode_no_space {secret uname : String} (uid exp : Nat)
    (hsp : ' ' ∉ secret.data) (hup : ' ' ∉ uname.data) :
    ' ' ∉ (jwt_encode secret uid uname exp).data := by
  have hpay : ' ' ∉ (jwtPayloadStr uid uname exp).data := by
    rw [jwtPayloadStr_data]
    intro h
    rcases List.mem_append.mp h with h | h
    · exact char_ne_space_of_digit (digit_chars_natStr _ h) rfl
    · rcases List.mem_cons.mp h with h | h
      · cases h
      · rcases List.mem_append.mp h with h | h
        · exact hup h
        · rcases List.mem_cons.mp h with h | h
          · cases h
          · exact char_ne_space_of_digit (digit_chars_natStr _ h) rfl
  have hsig : ' ' ∉ (hs256Sig secret (jwtPayloadStr uid uname exp)).data := by
    unfold hs256Sig
    intro h
    simp only [List.mem_map] at h
    obtain ⟨c, hcmem, hc⟩ := h
    have hc2 : c = ' ' := by
      by_cases hcb : c = '|'
      · rw [if_pos hcb] at hc
        cases hc
      · rw [if_neg hcb] at hc
        exact hc
    subst hc2
    rw [strData_append, strData_append, strData_append] at hcmem
    simp only [List.append_assoc] at hcmem
    rcases List.mem_append.mp hcmem with h | h
    · revert h
      decide
    · rcases List.mem_append.mp h with h | h
      · exact hsp h
      · rcases List.mem_append.mp h with h | h
        · revert h
          decide
        · exact hpay h
  unfold jwt_encode
  rw [data_bar_sep]
  intro h
  rcases List.mem_append.mp h with h | h
  · exact hpay h
  · rcases List.mem_cons.mp h with h | h
    · cases h
    · exact hsig h

/-- Processing of a well-formed `Bearer` header: the middleware maps the
three `jwt.decode` outcomes to attachment of the identity, 401 "Token
expired", and 401 "Invalid token" respectively. -/
theorem verify_token_bearer (secret : String) (now : Nat) (token : String)
    (hns : ' ' ∉ token.data) (hne : token ≠ "") :
    verify_token secret now (some ("Bearer " ++ token)) =
      match jwt_decode secret now token with
      | .ok claims => .ok (claims.user_id, claims.username)
      | .error .expired => .error (401, "Token expired")
      | .error .invalid => .error (401, "Invalid token") := by
  have hdata : ("Bearer " ++ token).data = "Bearer".data ++ ' ' :: token.data := by
    rw [strData_append]
    rfl
  have hsplit : pySplit ' ' ("Bearer " ++ token) = ["Bearer", token] := by
    unfold pySplit
    rw [hdata, splitChar_append _ (by decide), splitChar_of_not_mem hns]
    simp [string_mk_data]
  have hneH : "Bearer " ++ token ≠ "" := by
    intro h
    have hd : ("Bearer " ++ token).data = [] := by rw [h]
    rw [hdata] at hd
    cases hd
  simp [verify_token, hneH, hsplit, hne]

/-- C8: the token issued at login (`jwt_encode secret user.id user.username
(now + 7 days)`, see `loginSuccessBody`) embeds the user id, username and
absolute expiry, MAC-signed with the server secret.  Decoding with the same
secret recovers exactly those claims while `now < exp` (conjunct 1) and
reports expiry afterwards (conjunct 2); through `verify_token`, an unexpired
correctly-signed bearer token is accepted with `(userId, username)` attached
(conjunct 3), an expired one is rejected 401 (conjunct 4), any token that
fails decoding is rejected 401 (conjunct 5) — never treated as anonymous —
and a token checked under a different secret whose MAC differs is rejected as
invalid (conjunct 6). -/
theorem token_lifecycle (secret uname token : String) (uid exp now : Nat)
    (hbar : '|' ∉ uname.data) (hsp : ' ' ∉ secret.data) (hup : ' ' ∉ uname.data) :
    (now < exp →
      jwt_decode secret now (jwt_encode secret uid uname exp) = .ok ⟨uid, uname, exp⟩) ∧
    (exp ≤ now →
      jwt_decode secret now (jwt_encode secret uid uname exp) = .error .expired) ∧
    (now < exp →
      verify_token secret now (some ("Bearer " ++ jwt_encode secret uid uname exp)) =
        .ok (uid, uname)) ∧
    (exp ≤ now →
      verify_token secret now (some ("Bearer " ++ jwt_encode secret uid uname exp)) =
        .error (401, "Token expired")) ∧
    (' ' ∉ token.data → token ≠ "" → jwt_decode secret now token = .error .invalid →
      verify_token secret now (some ("Bearer " ++ token)) = .error (401, "Invalid token")) ∧
    (∀ secretB,
      hs256Sig secretB (jwtPayloadStr uid uname exp) ≠
        hs256Sig secret (jwtPayloadStr uid uname exp) →
      jwt_decode secretB now (jwt_encode secret uid uname exp) = .error .invalid) := by
  have htne : jwt_encode secret uid uname exp ≠ "" := by
    intro h
    have hd : (jwt_encode secret uid uname exp).data = [] := by rw [h]
    unfold jwt_encode at hd
    rw [data_bar_sep] at hd
    cases List.append_eq_nil.mp hd |>.2
  have htns : ' ' ∉ (jwt_encode secret uid uname exp).data := jwt_encode_no_space uid exp hsp hup
  refine ⟨?_, ?_, ?_, ?_, ?_, ?_⟩
  · intro h
    rw [jwt_decode_encode secret uid exp now hbar, if_neg (by omega)]
  · intro h
    rw [jwt_decode_encode secret uid exp now hbar, if_pos h]
  · intro h
    rw [verify_token_bearer secret now _ htns htne,
      jwt_decode_encode secret uid exp now hbar, if_neg (by omega)]
  · intro h
    rw [verify_token_bearer secret now _ htns htne,
      jwt_decode_encode secret uid exp now hbar, if_pos h]
  · intro h1 h2 h3
    rw [verify_token_bearer secret now token h1 h2, h3]
  · intro secretB hsig
    unfold jwt_decode
    rw [jwt_encode_split secret uid exp hbar]
    simp only [charsToNat?_natStr]
    rw [if_pos (by simp [jwtPayloadStr]; exact fun h => hsig h.symm)]

/-- Witness for C8: concrete secret "sec", user (1, "alice"), expiry 700000.
Valid-before-expiry acceptance, post-expiry rejection, rejection of a
garbage token, and rejection under a different secret "evil". -/
theorem token_lifecycle_witness :
    (('|' ∉ "alice".data ∧ ' ' ∉ "sec".data ∧ ' ' ∉ "alice".data) ∧
      (1000 < 700000 ∧ (700000 : Nat) ≤ 800000)) ∧
    verify_token "sec" 1000 (some ("Bearer " ++ jwt_encode "sec" 1 "alice" 700000)) =
      .ok (1, "alice") ∧
    verify_token "sec" 800000 (some ("Bearer " ++ jwt_encode "sec" 1 "alice" 700000)) =
      .error (401, "Token expired") ∧
    verify_token "sec" 1000 (some ("Bearer " ++ "garbage")) = .error (401, "Invalid token") ∧
    jwt_decode "evil" 1000 (jwt_encode "sec" 1 "alice" 700000) = .error .invalid :=
  ⟨⟨⟨by decide, by decide, by decide⟩, ⟨by decide, by decide⟩⟩,
   (token_lifecycle "sec" "alice" "garbage" 1 700000 1000
      (by decide) (by decide) (by decide)).2.2.1 (by decide),
   (token_lifecycle "sec" "alice" "garbage" 1 700000 800000
      (by decide) (by decide) (by decide)).2.2.2.1 (by decide),
   (token_lifecycle "sec" "alice" "garbage" 1 700000 1000
      (by decide) (by decide) (by decide)).2.2.2.2.1 (by decide) (by decide) rfl,
   (token_lifecycle "sec" "alice" "garbage" 1 700000 1000
      (by decide) (by decide) (by decide)).2.2.2.2.2 "evil" (by decide)⟩

/-- Rejoining the chunks produced by `splitChar`, the inverse used to recover
the original character list. -/
def joinSep (sep : Char) : List (List Char) → List Char
  | [] => []
  | [g] => g
  | g :: gs => g ++ sep :: joinSep sep gs

theorem joinSep_splitChar (sep : Char) (xs : List Char) :
    joinSep sep (splitChar sep xs) = xs := by
  induction xs with
  | nil => rfl
  | cons c cs ih =>
    simp only [splitChar]
    by_cases hc : c = sep
    · rw [if_pos hc]
      cases hr : splitChar sep cs with
      | nil => exact absurd hr (splitChar_ne_nil sep cs)
      | cons g gs =>
        rw [hr] at ih
        subst hc
        simp only [joinSep, List.nil_append]
        rw [ih]
    · rw [if_neg hc]
      cases hr : splitChar sep cs with
      | nil => exact absurd hr (splitChar_ne_nil sep cs)
      | cons g gs =>
        rw [hr] at ih
        cases gs with
        | nil =>
          simp only [joinSep] at ih ⊢
          rw [ih]
        | cons g2 gs2 =>
          simp only [joinSep] at ih ⊢
          rw [List.cons_append, ih]

theorem validate_username_all_chars {u : String} (h : validate_username u = none) :
    u.data.all (fun c => c.isAlphanum || c = '_') = true := by
  unfold validate_username at h
  split at h
  · cases h
  · split at h
    · cases h
    · split at h
      · cases h
      · rename_i hcond
        rw [not_not] at hcond
        exact hcond.2

theorem validate_email_match {e : String} (h : validate_email e = none) :
    emailRegexMatch e = true := by
  unfold validate_email at h
  split at h
  · cases h
  · split at h
    · cases h
    · rename_i hcond
      rwa [not_not] at hcond

theorem validate_email_chars {e : String} (h : validate_email e = none) :
    ∀ c ∈ e.data, isEmailLocalChar c = true ∨ c = '@' ∨ isEmailDomainChar c = true ∨
      c.isAlpha = true := by
  have hm := validate_email_match h
  unfold emailRegexMatch at hm
  cases hsplit : pySplit '@' e with
  | nil => rw [hsplit] at hm; cases hm
  | cons localPart rest =>
    cases rest with
    | nil => rw [hsplit] at hm; cases hm
    | cons domain rest2 =>
      cases rest2 with
      | cons x xs => rw [hsplit] at hm; cases hm
      | nil =>
        rw [hsplit] at hm
        simp only [Bool.and_eq_true, decide_eq_true_eq] at hm
        unfold pySplit at hsplit
        have hchunks : ∃ a b, splitChar '@' e.data = [a, b] ∧ a = localPart.data ∧
            b = domain.data := by
          cases hsc : splitChar '@' e.data with
          | nil => exact absurd hsc (splitChar_ne_nil _ _)
          | cons a rest =>
            rw [hsc] at hsplit
            cases rest with
            | nil => simp at hsplit
            | cons b rest2 =>
              cases rest2 with
              | cons y ys => simp at hsplit
              | nil =>
                simp only [List.map_cons, List.map_nil, List.cons.injEq, and_true] at hsplit
                refine ⟨a, b, rfl, ?_, ?_⟩
                · exact congrArg String.data hsplit.1
                · exact congrArg String.data hsplit.2
        obtain ⟨a, b, hsc, ha, hb⟩ := hchunks
        have hdataEq : e.data = a ++ '@' :: b := by
          have := joinSep_splitChar '@' e.data
          rw [hsc] at this
          simpa [joinSep] using this.symm
        intro c hc
        rw [hdataEq] at hc
        rcases List.mem_append.mp hc with hcl | hcr
        · left
          have hall := hm.1.2
          rw [← ha] at hall
          rw [List.all_eq_true] at hall
          exact hall c hcl
        · rcases List.mem_cons.mp hcr with hceq | hcd
          · right; left; exact hceq
          · -- c is a character of the domain part
            have hmid := hm.2
            cases hbt : (domain.data.reverse.dropWhile (fun c => c ≠ '.')) with
            | nil =>
              rw [hbt] at hmid
              cases hmid
            | cons d0 middleRev =>
              rw [hbt] at hmid
              simp only [Bool.and_eq_true, decide_eq_true_eq] at hmid
              obtain ⟨⟨⟨⟨hd0, hmrne⟩, hmrall⟩, htldlen⟩, htldall⟩ := hmid
              have hcrev : c ∈ domain.data.reverse := by
                rw [List.mem_reverse]
                rw [hb] at hcd
                exact hcd
              rw [← List.takeWhile_append_dropWhile (p := fun c => c ≠ '.')
                (l := domain.data.reverse)] at hcrev
              rcases List.mem_append.mp hcrev with htw | hdw
              · right; right; right
                rw [List.all_eq_true] at htldall
                exact htldall c (by rw [List.mem_reverse]; exact htw)
              · rw [hbt] at hdw
                rcases List.mem_cons.mp hdw with hcdot | hcmid
                · right; right; left
                  rw [hcdot, hd0]
                  decide
                · right; right; left
                  rw [List.all_eq_true] at hmrall
                  exact hmrall c hcmid

theorem no_dollar_of_username {u : String} (h : validate_username u = none) :
    '$' ∉ u.data := by
  intro hc
  have hall := validate_username_all_chars h
  rw [List.all_eq_true] at hall
  have := hall '$' hc
  revert this
  decide

theorem no_dollar_of_email {e : String} (h : validate_email e = none) :
    '$' ∉ e.data := by
  intro hc
  rcases validate_email_chars h '$' hc with h1 | h1 | h1 | h1 <;> revert h1 <;> decide

theorem dollar_mem_hash (salt pw : String) :
    '$' ∈ (generate_password_hash salt pw).data := by
  unfold generate_password_hash
  rw [show salt ++ "$" ++ pw = salt ++ String.mk ['$'] ++ pw from rfl, strData_triple]
  exact List.mem_append_right _ (List.mem_cons_self _ _)

/-- Inversion of a 201 register response: all validations passed, both
duplicate checks were negative, and the result is the canonical success
state/response pair. -/
theorem register_success_inv {db : DB} {u0 e0 pw salt : String}
    (h : (register db (some ⟨some u0, some e0, some pw⟩) salt).2.1 = 201) :
    validate_username (pyStrip u0) = none ∧
    validate_email (pyLower (pyStrip e0)) = none ∧
    validate_password pw = none ∧
    register db (some ⟨some u0, some e0, some pw⟩) salt =
      ({ db with
          users := db.users ++ [⟨db.nextUserId, pyStrip u0, pyLower (pyStrip e0),
            generate_password_hash salt pw⟩],
          nextUserId := db.nextUserId + 1 },
       (201, Json.obj
         [("message", Json.str "User created successfully"),
          ("user", Json.obj
            [("id", Json.num db.nextUserId),
             ("username", Json.str (pyStrip u0)),
             ("email", Json.str (pyLower (pyStrip e0)))])])) := by
  cases hvu : validate_username (pyStrip u0) with
  | some e => simp [register, hvu] at h
  | none =>
  cases hve : validate_email (pyLower (pyStrip e0)) with
  | some e => simp [register, hvu, hve] at h
  | none =>
  cases hvp : validate_password pw with
  | some e => simp [register, hvu, hve, hvp] at h
  | none =>
  cases hfu : (db.users.find? (fun u => u.username = pyStrip u0)).isSome with
  | true => simp [register, hvu, hve, hvp, hfu] at h
  | false =>
  cases hfe : (db.users.find? (fun u => u.email = pyLower (pyStrip e0))).isSome with
  | true => simp [register, hvu, hve, hvp, hfu, hfe] at h
  | false =>
  refine ⟨rfl, rfl, rfl, ?_⟩
  simp [register, hvu, hve, hvp, hfu, hfe]

/-- Inversion of a 200 login response: some stored user matched the lookup,
the password check passed, and the response is that user's success body. -/
theorem login_success_inv {db : DB} {i pw secret : String} {now : Nat}
    (h : (login db (some ⟨some i, some pw⟩) secret now).1 = 200) :
    ∃ user ∈ db.users,
      db.users.find? (loginMatches (pyStrip i)) = some user ∧
      check_password_hash user.password_hash pw = true ∧
      login db (some ⟨some i, some pw⟩) secret now = (200, loginSuccessBody secret now user) := by
  by_cases hcond : (pyStrip i = "" ∨ pw = "")
  · simp [login, hcond] at h
  · cases hf : db.users.find? (loginMatches (pyStrip i)) with
    | none => simp [login, hcond, hf] at h
    | some user =>
      cases hck : check_password_hash user.password_hash pw with
      | false => simp [login, hcond, hf, hck] at h
      | true =>
        refine ⟨user, List.mem_of_find?_eq_some hf, rfl, hck, ?_⟩
        simp [login, hcond, hf, hck, loginSuccessBody]

/-- C9: no success response of any endpoint carries the password or its
hash.  The string values of each endpoint's success body are computed
exactly: register's body holds only the fixed message, the username and the
email (conjunct 1), and consequently never the stored password hash — which
always contains `'$'` while validated usernames and emails cannot (conjunct
2) — nor the plaintext password unless it literally coincides with one of
those three public strings (conjunct 3); login's body holds only the fixed
message, the token, the username and the email (conjunct 4); the `me` body
only the username and email of the looked-up user (conjunct 5); and the task
endpoints' bodies only task texts or fixed messages (conjuncts 6–9). -/
theorem responses_no_secrets (db : DB) (uid task_id now : Nat) (secret : String) :
    (∀ u0 e0 pw salt : String,
      (register db (some ⟨some u0, some e0, some pw⟩) salt).2.1 = 201 →
      Json.strings (register db (some ⟨some u0, some e0, some pw⟩) salt).2.2 =
        ["User created successfully", pyStrip u0, pyLower (pyStrip e0)]) ∧
    (∀ u0 e0 pw salt : String,
      (register db (some ⟨some u0, some e0, some pw⟩) salt).2.1 = 201 →
      generate_password_hash salt pw ∉
        Json.strings (register db (some ⟨some u0, some e0, some pw⟩) salt).2.2) ∧
    (∀ u0 e0 pw salt : String,
      (register db (some ⟨some u0, some e0, some pw⟩) salt).2.1 = 201 →
      pw ≠ "User created successfully" → pw ≠ pyStrip u0 → pw ≠ pyLower (pyStrip e0) →
      pw ∉ Json.strings (register db (some ⟨some u0, some e0, some pw⟩) salt).2.2) ∧
    (∀ i pw : String,
      (login db (some ⟨some i, some pw⟩) secret now).1 = 200 →
      ∃ user ∈ db.users,
        Json.strings (login db (some ⟨some i, some pw⟩) secret now).2 =
          ["Login successful", jwt_encode secret user.id user.username (now + 7 * 24 * 60 * 60),
           user.username, user.email]) ∧
    ((get_current_user db uid).1 = 200 →
      ∃ u ∈ db.users, u.id = uid ∧
        Json.strings (get_current_user db uid).2 = [u.username, u.email]) ∧
    (Json.strings (get_tasks db uid).2 =
      (db.tasks.filter (fun t => t.user_id = uid)).map Task.text) ∧
    (∀ text : String,
      Json.strings (add_task db uid (some ⟨some text⟩)).2.2 = [text]) ∧
    ((delete_task db uid task_id).2.1 = 200 →
      Json.strings (delete_task db uid task_id).2.2 = ["Task deleted"]) ∧
    ((increment_pomodoro db uid task_id).2.1 = 200 →
      ∃ t ∈ db.tasks, Json.strings (increment_pomodoro db uid task_id).2.2 = [t.text]) := by
  have hstrTask : ∀ l : List Task, Json.stringsArr (l.map taskJson) = l.map Task.text := by
    intro l
    induction l with
    | nil => rfl
    | cons t ts ih =>
      simp [taskJson, Json.strings, Json.stringsArr, Json.stringsFields, ih]
  refine ⟨?_, ?_, ?_, ?_, ?_, ?_, ?_, ?_, ?_⟩
  · intro u0 e0 pw salt h
    obtain ⟨_, _, _, heq⟩ := register_success_inv h
    rw [heq]
    simp [Json.strings, Json.stringsFields, Json.stringsArr]
  · intro u0 e0 pw salt h
    obtain ⟨hvu, hve, _, heq⟩ := register_success_inv h
    have hstr : Json.strings (register db (some ⟨some u0, some e0, some pw⟩) salt).2.2 =
        ["User created successfully", pyStrip u0, pyLower (pyStrip e0)] := by
      rw [heq]
      simp [Json.strings, Json.stringsFields, Json.stringsArr]
    rw [hstr]
    intro hmem
    have hdollar := dollar_mem_hash salt pw
    rw [List.mem_cons, List.mem_cons, List.mem_singleton] at hmem
    rcases hmem with h1 | h1 | h1 <;> rw [h1] at hdollar
    · revert hdollar
      decide
    · exact no_dollar_of_username hvu hdollar
    · exact no_dollar_of_email hve hdollar
  · intro u0 e0 pw salt h hne1 hne2 hne3
    obtain ⟨_, _, _, heq⟩ := register_success_inv h
    have hstr : Json.strings (register db (some ⟨some u0, some e0, some pw⟩) salt).2.2 =
        ["User created successfully", pyStrip u0, pyLower (pyStrip e0)] := by
      rw [heq]
      simp [Json.strings, Json.stringsFields, Json.stringsArr]
    rw [hstr]
    intro hmem
    rw [List.mem_cons, List.mem_cons, List.mem_singleton] at hmem
    rcases hmem with h1 | h1 | h1
    · exact hne1 h1
    · exact hne2 h1
    · exact hne3 h1
  · intro i pw h
    obtain ⟨user, hmem, _, _, heq⟩ := login_success_inv h
    refine ⟨user, hmem, ?_⟩
    rw [heq]
    simp [loginSuccessBody, Json.strings, Json.stringsFields, Json.stringsArr]
  · intro h
    cases hf : db.users.find? (fun u => u.id = uid) with
    | none => simp [get_current_user, hf] at h
    | some u =>
      refine ⟨u, List.mem_of_find?_eq_some hf, ?_, ?_⟩
      · have := List.find?_some hf
        simpa using this
      · simp [get_current_user, hf, Json.strings, Json.stringsFields, Json.stringsArr]
  · simp only [get_tasks, ownerTaskList]
    simp [Json.strings, Json.stringsFields, Json.stringsArr, hstrTask]
  · intro text
    simp [add_task, taskJson, Json.strings, Json.stringsFields, Json.stringsArr]
  · intro h
    cases hf : db.tasks.find? (taskMatches task_id uid) with
    | none => simp [delete_task, hf] at h
    | some t =>
      simp [delete_task, hf, Json.strings, Json.stringsFields, Json.stringsArr]
  · intro h
    cases hf : db.tasks.find? (taskMatches task_id uid) with
    | none => simp [increment_pomodoro, hf] at h
    | some task =>
      have hbase := List.mem_of_find?_eq_some hf
      cases hg : (db.tasks.map fun t =>
          if taskMatches task_id uid t then { t with pomodoroCount := task.pomodoroCount + 1 }
          else t).find? (taskMatches task_id uid) with
      | none => simp [increment_pomodoro, hf, hg] at h
      | some updated =>
        have hup : updated ∈ db.tasks.map fun t =>
            if taskMatches task_id uid t then { t with pomodoroCount := task.pomodoroCount + 1 }
            else t := List.mem_of_find?_eq_some hg
        rw [List.mem_map] at hup
        obtain ⟨orig, horig, hor⟩ := hup
        refine ⟨orig, horig, ?_⟩
        have htext : updated.text = orig.text := by
          by_cases hm : taskMatches task_id uid orig = true
          · rw [if_pos hm] at hor
            rw [← hor]
          · rw [if_neg hm] at hor
            rw [← hor]
        simp [increment_pomodoro, hf, hg, taskJson, Json.strings, Json.stringsFields,
          Json.stringsArr, htext]

/-- Witness for C9: alice's concrete register, login, me, list, add, delete
and increment responses in `dbW1`, with the hash and password absent. -/
theorem responses_no_secrets_witness :
    (register dbW1 (some ⟨some "carol", some "c@z.com", some "secret9"⟩) "s9").2.1 = 201 ∧
    Json.strings (register dbW1 (some ⟨some "carol", some "c@z.com", some "secret9"⟩) "s9").2.2 =
      ["User created successfully", "carol", "c@z.com"] ∧
    generate_password_hash "s9" "secret9" ∉
      Json.strings (register dbW1 (some ⟨some "carol", some "c@z.com", some "secret9"⟩) "s9").2.2 ∧
    "secret9" ∉
      Json.strings (register dbW1 (some ⟨some "carol", some "c@z.com", some "secret9"⟩) "s9").2.2 ∧
    Json.strings (get_tasks dbW1 2).2 = ["bobs task"] ∧
    Json.strings (add_task dbW1 1 (some ⟨some "demo"⟩)).2.2 = ["demo"] := by
  have h201 : (register dbW1 (some ⟨some "carol", some "c@z.com", some "secret9"⟩) "s9").2.1 =
      201 := by decide
  refine ⟨h201, ?_, ?_, ?_, ?_, ?_⟩
  · have := (responses_no_secrets dbW1 1 5 0 "sec").1 "carol" "c@z.com" "secret9" "s9" h201
    simpa using this
  · have := (responses_no_secrets dbW1 1 5 0 "sec").2.1 "carol" "c@z.com" "secret9" "s9" h201
    simpa using this
  · have := (responses_no_secrets dbW1 1 5 0 "sec").2.2.1 "carol" "c@z.com" "secret9" "s9" h201
      (by decide) (by decide) (by decide)
    simpa using this
  · have := (responses_no_secrets dbW1 2 5 0 "sec").2.2.2.2.2.1
    simpa using this
  · exact (responses_no_secrets dbW1 1 5 0 "sec").2.2.2.2.2.2.1 "demo"

/-- Witness for C10 at a concrete state: users are untouched and bob's task
survives alice's operations on task id 5 unchanged. -/
theorem task_ops_frame_witness :
    (add_task dbW1 1 (some ⟨some "x"⟩)).1.users = dbW1.users ∧
    ((⟨5, 2, "bobs task", 0, 3⟩ : Task) ∈ dbW1.tasks ∧ ¬ ((5 : Nat) = 5 ∧ (2 : Nat) = 1)) ∧
    (⟨5, 2, "bobs task", 0, 3⟩ : Task) ∈ (delete_task dbW1 1 5).1.tasks ∧
    (⟨5, 2, "bobs task", 0, 3⟩ : Task) ∈ (increment_pomodoro dbW1 1 5).1.tasks :=
  ⟨(task_ops_frame dbW1 1 5 (some ⟨some "x"⟩)).1.1,
   ⟨by decide, by decide⟩,
   ((task_ops_frame dbW1 1 5 (some ⟨some "x"⟩)).2.1 ⟨5, 2, "bobs task", 0, 3⟩
      (by decide) (by decide)).1,
   ((task_ops_frame dbW1 1 5 (some ⟨some "x"⟩)).2.1 ⟨5, 2, "bobs task", 0, 3⟩
      (by decide) (by decide)).2⟩

end TodoApp
